import Mathlib

/-!
Shallow embedding of the multi-turn tool-calling agent from
`examples/multi_turn_agent.rs` of kobe4cn/k8s-ops, together with the
manifest-apply helper (`ApplyYamlToK8s::apply_yaml_to_k8s`,
`parse_api_version`) and the one-shot channel bridge it uses.
-/

/-- User-side message content (rig `UserContent` as used by the agent):
plain text, or a tool result carrying the correlation id. -/
inductive UserContent where
  | text (text : String)
  | toolResult (id : String) (content : String)
deriving DecidableEq, Repr

/-- Assistant-side message content (rig `AssistantContent`): free text or a
structured tool call `ToolCall \x7b id, function: ToolFunction \x7b name, arguments \x7d \x7d`.
Arguments are kept in their serialized form (`arguments.to_string()` in the source). -/
inductive AssistantContent where
  | text (text : String)
  | toolCall (id : String) (name : String) (arguments : String)
deriving DecidableEq, Repr

/-- A conversation turn (rig `Message`). The source only ever builds messages
with `OneOrMany::one(content)`, so one content item per message. -/
inductive Message where
  | user (content : UserContent)
  | assistant (content : AssistantContent)
deriving DecidableEq, Repr

/-- The error type of `multi_turn_prompt` (rig `PromptError`): a completion
failure (from the `?` on `.completion(..).send()`) or a tool-set failure
(from the `?` on `self.agent.tools.call`). Payloads are kept as strings. -/
inductive PromptError where
  | completionError (e : String)
  | toolError (e : String)
deriving DecidableEq, Repr

/-- The agent's two external capabilities as used by `multi_turn_prompt`:
`completion(current_prompt, chat_history)` returning the response `choice`
segments, and `tools.call(name, arguments)` returning the tool output. -/
structure AgentModel where
  complete : Message → List Message → Except String (List AssistantContent)
  toolsCall : String → String → Except String String

/-- Outcome of the `for content in resp.choice` loop of `multi_turn_prompt`:
the scan finished (carrying `final_text` and the updated history), a tool call
was actioned and broke the scan (carrying the new `current_prompt`), or the
`?` on `tools.call` aborted with an error. -/
inductive ScanOutcome where
  | finished (finalText : Option String) (history : List Message)
  | toolCalled (newPrompt : Message) (history : List Message)
  | failed (e : PromptError) (history : List Message)
deriving DecidableEq, Repr

/-- The chat history carried by a `ScanOutcome`. -/
def ScanOutcome.history : ScanOutcome → List Message
  | .finished _ h => h
  | .toolCalled _ h => h
  | .failed _ h => h

/-- The segment scan of `multi_turn_prompt` (lines 43-82 of the source).
On a `Text` segment: push `current_prompt` then the assistant text message,
set `final_text`, continue. On a `ToolCall` segment: push `current_prompt`
then the assistant tool-call message, invoke the tool (the `?` aborts on
error), build the `UserToolResult` as new prompt, clear `final_text`, break. -/
def processChoice (toolsCall : String → String → Except String String) :
    List AssistantContent → Message → List Message → Option String → ScanOutcome
  | [], _, history, finalText => .finished finalText history
  | .text t :: rest, current, history, _ =>
      processChoice toolsCall rest current
        (history ++ [current, .assistant (.text t)]) (some t)
  | .toolCall id name args :: _, current, history, _ =>
      let history := history ++ [current, .assistant (.toolCall id name args)]
      match toolsCall name args with
      | .error e => .failed (.toolError e) history
      | .ok result => .toolCalled (.user (.toolResult id result)) history

/-- The orchestration loop `MultiTurnAgent::multi_turn_prompt`, fuel-indexed
(the Rust loop may diverge; `none` means the fuel ran out). Returns the
`Result<String, PromptError>` together with the final `chat_history`
(which in Rust lives in `self` and survives an early `?` return). -/
def multiTurnPrompt (agent : AgentModel) :
    Nat → Message → List Message → Option (Except PromptError String × List Message)
  | 0, _, _ => none
  | fuel + 1, currentPrompt, chatHistory =>
    match agent.complete currentPrompt chatHistory with
    | .error e => some (.error (.completionError e), chatHistory)
    | .ok choice =>
      if choice.isEmpty then some (.ok "执行完成", chatHistory)
      else
        match processChoice agent.toolsCall choice currentPrompt chatHistory none with
        | .failed e history => some (.error e, history)
        | .toolCalled newPrompt history => multiTurnPrompt agent fuel newPrompt history
        | .finished (some t) history => some (.ok t, history)
        | .finished none history => multiTurnPrompt agent fuel currentPrompt history

/-- Whether a history contains any `UserToolResult` turn. -/
def containsToolResult (l : List Message) : Bool :=
  l.any fun m =>
    match m with
    | .user (.toolResult _ _) => true
    | _ => false

/-- Rust `str::split_once(sep)` on a character list: splits at the first
occurrence of `sep`, returning the parts before and after it. -/
def splitOnceChars (sep : Char) : List Char → Option (List Char × List Char)
  | [] => none
  | c :: cs =>
    if c = sep then some ([], cs)
    else (splitOnceChars sep cs).map fun p => (c :: p.1, p.2)

/-- `parse_api_version` (lines 256-260 of the source):
`api_version.split_once(slash).map_or((None, api_version), ...)`. -/
def parse_api_version (apiVersion : String) : Option String × String :=
  match splitOnceChars '/' apiVersion.toList with
  | none => (none, apiVersion)
  | some (g, v) => (some (String.mk g), String.mk v)

/-- The `TypeMeta` of a parsed `DynamicObject`: `api_version` and `kind`. -/
structure TypeMeta where
  api_version : String
  kind : String
deriving DecidableEq, Repr

/-- The object metadata fields used by `apply_yaml_to_k8s`. -/
structure ObjectMeta where
  name : Option String
  namespace' : Option String
deriving DecidableEq, Repr

/-- A parsed `DynamicObject`: optional type info plus metadata. -/
structure DynamicObject where
  types : Option TypeMeta
  metadata : ObjectMeta
deriving DecidableEq, Repr

/-- What the apply worker does with a parsed object (lines 206-234 of the
source) before issuing the create request: an error return, a panic from the
unconditional `group.unwrap()`, or the create request it would issue
(group, version, kind, namespace). -/
inductive ApplyOutcome where
  | panicked
  | errored (msg : String)
  | request (group : String) (version : String) (kind : String) (namespace' : String)
deriving DecidableEq, Repr

/-- The resource-identity resolution of `apply_yaml_to_k8s` on a parsed
object: extract `api_version` and `kind` from `obj.types` (error if absent),
split the version with `parse_api_version`, build the GVK with
`group.unwrap()` (panics when the group is `None`), and resolve the namespace
with `obj.metadata.namespace.as_deref().unwrap_or("default")`. -/
def buildApplyRequest (obj : DynamicObject) : ApplyOutcome :=
  match obj.types with
  | none => .errored "API版本信息缺失"
  | some t =>
    match parse_api_version t.api_version with
    | (none, _) => .panicked
    | (some group, version) =>
        .request group version t.kind (obj.metadata.namespace'.getD "default")

/-- The error enum `ApplyError` of the source (lines 125-141), one
constructor per `thiserror` variant, payloads kept as display strings. -/
inductive ApplyError where
  | promptError (e : String)
  | completionError (e : String)
  | applyError (e : String)
  | boxedError (e : String)
  | serdeError (e : String)
  | serdeYamlError (e : String)
  | kubeError (e : String)
deriving DecidableEq, Repr

/-- What the caller of the one-shot bridge observes: the worker's outcome
delivered through the channel, or a panic of the calling thread. -/
inductive BridgeOutcome where
  | delivered (result : Except ApplyError String)
  | panicked
deriving Repr

/-- The receiving end of the bridge in `apply_yaml_to_k8s` (line 252):
`rx.recv().unwrap()`. The argument is what the worker managed to send before
terminating: `some r` if the `tx.send(result)` executed, `none` if the worker
died first (then `recv` returns a `RecvError` and the `unwrap` panics). -/
def recvUnwrap (sent : Option (Except ApplyError String)) : BridgeOutcome :=
  match sent with
  | some result => .delivered result
  | none => .panicked

/-- The claim's notion of the bridge surfacing a receive failure as an error
value (a `BridgeError` treated as a handler error): the outcome is a
delivered `Err`. -/
def surfacedAsHandlerError : BridgeOutcome → Bool
  | .delivered (.error _) => true
  | _ => false

/-- The `final_text` value after scanning a run of text segments, starting
from candidate `acc`: the last text if the run is non-empty, else `acc`. -/
def lastCandidate (acc : Option String) : List String → Option String
  | [] => acc
  | t :: ts => lastCandidate (some t) ts

/-- A completion model that always requests one unknown tool, whose tool set
rejects the call (rig `ToolSetError::ToolNotFoundError`). -/
def toolErrAgent : AgentModel where
  complete := fun _ _ => .ok [.toolCall "call-1" "no_such_tool" "null"]
  toolsCall := fun _ _ => .error "ToolNotFoundError"

/-- A completion model that requests one tool call on the first round and
fails with the probe error "probe" on every later round, so the run stops at
the second completion call and exposes the history at that moment. -/
def probeAgent : AgentModel where
  complete := fun _ hist =>
    if hist.isEmpty then .ok [.toolCall "call-7" "apply_yaml_to_k8s" "null"]
    else .error "probe"
  toolsCall := fun _ _ => .ok "部署完成"

/-- A completion model that always returns a zero-segment response. -/
def emptyAgent : AgentModel where
  complete := fun _ _ => .ok []
  toolsCall := fun _ _ => .error "unused"

/-- A completion model whose first response is text, then a tool call, then
more text, and whose later responses are empty. -/
def textToolAgent : AgentModel where
  complete := fun _ hist =>
    if hist.isEmpty then
      .ok [.text "thinking", .toolCall "call-9" "apply_yaml_to_k8s" "null", .text "ignored"]
    else .ok []
  toolsCall := fun _ _ => .ok "部署完成"

/-- A completion model that always answers with two text segments. -/
def textOnlyAgent : AgentModel where
  complete := fun _ _ => .ok [.text "first", .text "final answer"]
  toolsCall := fun _ _ => .error "unused"

lemma lastCandidate_of_getLast? :
    ∀ (ts : List String) (acc : Option String) (l : String),
      ts.getLast? = some l → lastCandidate acc ts = some l := by
  intro ts
  induction ts with
  | nil => intro acc l h; simp at h
  | cons t ts ih =>
    intro acc l h
    cases ts with
    | nil => simp at h; simp [lastCandidate, h]
    | cons t' ts' =>
      rw [List.getLast?_cons_cons] at h
      exact ih (some t) l h

lemma splitOnceChars_eq_none_of_not_mem (sep : Char) :
    ∀ l : List Char, sep ∉ l → splitOnceChars sep l = none := by
  intro l
  induction l with
  | nil => intro _; rfl
  | cons c cs ih =>
    intro h
    have hc : ¬ c = sep := fun hcs => h (hcs ▸ List.mem_cons_self c cs)
    have hcs : sep ∉ cs := fun hm => h (List.mem_cons_of_mem c hm)
    simp [splitOnceChars, hc, ih hcs]

lemma splitOnceChars_isSome_of_mem (sep : Char) :
    ∀ l : List Char, sep ∈ l → ∃ p, splitOnceChars sep l = some p := by
  intro l
  induction l with
  | nil => intro h; simp at h
  | cons c cs ih =>
    intro h
    by_cases hc : c = sep
    · exact ⟨([], cs), by simp [splitOnceChars, hc]⟩
    · have hm : sep ∈ cs := by
        rcases List.mem_cons.mp h with h1 | h2
        · exact absurd h1.symm hc
        · exact h2
      obtain ⟨p, hp⟩ := ih hm
      exact ⟨(c :: p.1, p.2), by simp [splitOnceChars, hc, hp]⟩

lemma processChoice_history_append (tc : String → String → Except String String) :
    ∀ (segs : List AssistantContent) (current : Message) (hist : List Message)
      (acc : Option String),
      ∃ tail, (processChoice tc segs current hist acc).history = hist ++ tail := by
  intro segs
  induction segs with
  | nil =>
    intro current hist acc
    exact ⟨[], by simp [processChoice, ScanOutcome.history]⟩
  | cons seg rest ih =>
    intro current hist acc
    cases seg with
    | text t =>
      obtain ⟨tail, htail⟩ := ih current (hist ++ [current, .assistant (.text t)]) (some t)
      exact ⟨[current, .assistant (.text t)] ++ tail, by
        simp only [processChoice]
        rw [htail, List.append_assoc]⟩
    | toolCall id name args =>
      cases h : tc name args with
      | error e =>
        exact ⟨[current, .assistant (.toolCall id name args)], by
          simp [processChoice, h, ScanOutcome.history]⟩
      | ok r =>
        exact ⟨[current, .assistant (.toolCall id name args)], by
          simp [processChoice, h, ScanOutcome.history]⟩

lemma processChoice_map_text (tc : String → String → Except String String) :
    ∀ (ts : List String) (current : Message) (hist : List Message) (acc : Option String),
      ∃ hist', processChoice tc (ts.map AssistantContent.text) current hist acc =
        .finished (lastCandidate acc ts) hist' := by
  intro ts
  induction ts with
  | nil => intro current hist acc; exact ⟨hist, rfl⟩
  | cons t ts ih =>
    intro current hist acc
    obtain ⟨hist', h⟩ := ih current (hist ++ [current, .assistant (.text t)]) (some t)
    exact ⟨hist', by simpa [processChoice, lastCandidate] using h⟩

lemma processChoice_text_prefix_toolCall_ok (tc : String → String → Except String String)
    (pre : List String) :
    ∀ (current : Message) (hist : List Message) (acc : Option String)
      (id name args r : String) (rest : List AssistantContent),
      tc name args = .ok r →
      ∃ hist',
        processChoice tc (pre.map AssistantContent.text ++ .toolCall id name args :: rest)
          current hist acc =
        .toolCalled (.user (.toolResult id r)) hist' := by
  induction pre with
  | nil =>
    intro current hist acc id name args r rest h
    exact ⟨hist ++ [current, .assistant (.toolCall id name args)], by simp [processChoice, h]⟩
  | cons t pre ih =>
    intro current hist acc id name args r rest h
    obtain ⟨hist', hh⟩ :=
      ih current (hist ++ [current, .assistant (.text t)]) (some t) id name args r rest h
    exact ⟨hist', by simpa [processChoice] using hh⟩

lemma processChoice_text_prefix_toolCall_error (tc : String → String → Except String String)
    (pre : List String) :
    ∀ (current : Message) (hist : List Message) (acc : Option String)
      (id name args e : String) (rest : List AssistantContent),
      tc name args = .error e →
      ∃ hist',
        processChoice tc (pre.map AssistantContent.text ++ .toolCall id name args :: rest)
          current hist acc =
        .failed (.toolError e) hist' := by
  induction pre with
  | nil =>
    intro current hist acc id name args e rest h
    exact ⟨hist ++ [current, .assistant (.toolCall id name args)], by simp [processChoice, h]⟩
  | cons t pre ih =>
    intro current hist acc id name args e rest h
    obtain ⟨hist', hh⟩ :=
      ih current (hist ++ [current, .assistant (.text t)]) (some t) id name args e rest h
    exact ⟨hist', by simpa [processChoice] using hh⟩

/-- C1 counterexample: the claim says a tool-invocation error does not abort
the run and is serialized into a `UserToolResult` turn. On a concrete run
where the model requests an unknown tool, `multi_turn_prompt` instead aborts
with a tool error (the `?` on `tools.call`), and the final history contains
no `UserToolResult` turn at all. -/
theorem c1_counterexample :
    multiTurnPrompt toolErrAgent 3 (.user (.text "deploy nginx")) [] =
      some (.error (.toolError "ToolNotFoundError"),
        [.user (.text "deploy nginx"),
         .assistant (.toolCall "call-1" "no_such_tool" "null")]) ∧
    containsToolResult
      [.user (.text "deploy nginx"),
       .assistant (.toolCall "call-1" "no_such_tool" "null")] = false :=
  ⟨rfl, rfl⟩

/-- C1 (amended): an error returned by a tool invocation aborts the run with
a tool error, exactly like a completion failure; it is never serialized into
a `UserToolResult` turn and the loop does not continue to another completion
call. -/
theorem c1_tool_error_aborts (agent : AgentModel) (fuel : Nat) (current : Message)
    (hist : List Message) (pre : List String) (id name args e : String)
    (rest : List AssistantContent)
    (hc : agent.complete current hist =
      .ok (pre.map AssistantContent.text ++ .toolCall id name args :: rest))
    (ht : agent.toolsCall name args = .error e) :
    ∃ hist', multiTurnPrompt agent (fuel + 1) current hist =
      some (.error (.toolError e), hist') := by
  obtain ⟨hist', hp⟩ :=
    processChoice_text_prefix_toolCall_error agent.toolsCall pre current hist none
      id name args e rest ht
  have hne : (pre.map AssistantContent.text ++ .toolCall id name args :: rest).isEmpty
      = false := by
    cases hm : pre.map AssistantContent.text with
    | nil => simp
    | cons a l => simp
  refine ⟨hist', ?_⟩
  simp [multiTurnPrompt, hc, hne, hp]

/-- C1 witness: the amended theorem applied to the unknown-tool agent. -/
theorem c1_witness :
    (toolErrAgent.complete (.user (.text "deploy nginx")) [] =
      .ok (([] : List String).map AssistantContent.text ++
        .toolCall "call-1" "no_such_tool" "null" :: [])) ∧
    (toolErrAgent.toolsCall "no_such_tool" "null" = .error "ToolNotFoundError") ∧
    ∃ hist', multiTurnPrompt toolErrAgent (2 + 1) (.user (.text "deploy nginx")) [] =
      some (.error (.toolError "ToolNotFoundError"), hist') :=
  ⟨rfl, rfl,
    c1_tool_error_aborts toolErrAgent 2 (.user (.text "deploy nginx")) [] []
      "call-1" "no_such_tool" "null" "ToolNotFoundError" [] rfl rfl⟩

/-- C2 counterexample: the claim says that after a tool-call-only response
the history gains the assistant tool-call turn and the user tool-result turn.
On a concrete run whose second completion call fails (exposing the history at
that call), the history holds exactly the previous prompt turn and the
assistant tool-call turn — it gained two entries, but no `UserToolResult`
turn is among them. -/
theorem c2_counterexample :
    multiTurnPrompt probeAgent 3 (.user (.text "deploy nginx")) [] =
      some (.error (.completionError "probe"),
        [.user (.text "deploy nginx"),
         .assistant (.toolCall "call-7" "apply_yaml_to_k8s" "null")]) ∧
    containsToolResult
      [.user (.text "deploy nginx"),
       .assistant (.toolCall "call-7" "apply_yaml_to_k8s" "null")] = false :=
  ⟨rfl, rfl⟩

/-- C2 (amended): after a tool-call-only response, the history gains exactly
two entries — the current prompt turn and the assistant tool-call turn — and
the user tool-result turn becomes the next prompt passed to the completion
client (so the model-visible conversation grows by the tool-call and
tool-result turns) before the next completion call. -/
theorem c2_history_gains_prompt_and_toolcall (agent : AgentModel) (fuel : Nat)
    (current : Message) (hist : List Message) (id name args r : String)
    (hc : agent.complete current hist = .ok [.toolCall id name args])
    (ht : agent.toolsCall name args = .ok r) :
    multiTurnPrompt agent (fuel + 1) current hist =
      multiTurnPrompt agent fuel (.user (.toolResult id r))
        (hist ++ [current, .assistant (.toolCall id name args)]) := by
  simp [multiTurnPrompt, hc, processChoice, ht]

/-- C2 witness: the amended theorem applied to the probe agent. -/
theorem c2_witness :
    (probeAgent.complete (.user (.text "deploy nginx")) [] =
      .ok [.toolCall "call-7" "apply_yaml_to_k8s" "null"]) ∧
    (probeAgent.toolsCall "apply_yaml_to_k8s" "null" = .ok "部署完成") ∧
    multiTurnPrompt probeAgent (2 + 1) (.user (.text "deploy nginx")) [] =
      multiTurnPrompt probeAgent 2 (.user (.toolResult "call-7" "部署完成"))
        ([] ++ [.user (.text "deploy nginx"),
          .assistant (.toolCall "call-7" "apply_yaml_to_k8s" "null")]) :=
  ⟨rfl, rfl,
    c2_history_gains_prompt_and_toolcall probeAgent 2 (.user (.text "deploy nginx")) []
      "call-7" "apply_yaml_to_k8s" "null" "部署完成" rfl rfl⟩

/-- C3: a zero-segment completion response makes `multi_turn_prompt` return
the sentinel string "执行完成" as a successful result immediately, leaving
the history exactly as it was at the start of the iteration. -/
theorem c3_zero_segments_sentinel (agent : AgentModel) (fuel : Nat) (current : Message)
    (hist : List Message) (hc : agent.complete current hist = .ok []) :
    multiTurnPrompt agent (fuel + 1) current hist = some (.ok "执行完成", hist) := by
  simp [multiTurnPrompt, hc]

/-- C3 witness: the zero-segment theorem applied to the empty-response agent. -/
theorem c3_witness :
    (emptyAgent.complete (.user (.text "hello")) [.user (.text "before")] = .ok []) ∧
    multiTurnPrompt emptyAgent (0 + 1) (.user (.text "hello")) [.user (.text "before")] =
      some (.ok "执行完成", [.user (.text "before")]) :=
  ⟨rfl, c3_zero_segments_sentinel emptyAgent 0 (.user (.text "hello"))
    [.user (.text "before")] rfl⟩

/-- C4: when a text segment precedes a tool-call segment in one response and
the tool call succeeds, the run at that iteration equals the run restarted
with the user tool-result as the new prompt: the candidate final answer from
the text segment is discarded (the iteration does not return it), the
segments after the tool call are never processed (the right-hand side does
not depend on `rest`), and the loop continues. -/
theorem c4_text_then_toolcall (agent : AgentModel) (fuel : Nat) (current : Message)
    (hist : List Message) (t id name args r : String) (rest : List AssistantContent)
    (hc : agent.complete current hist =
      .ok (.text t :: .toolCall id name args :: rest))
    (ht : agent.toolsCall name args = .ok r) :
    multiTurnPrompt agent (fuel + 1) current hist =
      multiTurnPrompt agent fuel (.user (.toolResult id r))
        (hist ++ [current, .assistant (.text t),
          current, .assistant (.toolCall id name args)]) := by
  simp [multiTurnPrompt, hc, processChoice, ht]

/-- C4 witness: the text-then-tool-call theorem applied to a concrete agent
whose first response is text, a tool call, then a trailing text segment. -/
theorem c4_witness :
    (textToolAgent.complete (.user (.text "go")) [] =
      .ok (.text "thinking" ::
        .toolCall "call-9" "apply_yaml_to_k8s" "null" :: [.text "ignored"])) ∧
    (textToolAgent.toolsCall "apply_yaml_to_k8s" "null" = .ok "部署完成") ∧
    multiTurnPrompt textToolAgent (1 + 1) (.user (.text "go")) [] =
      multiTurnPrompt textToolAgent 1 (.user (.toolResult "call-9" "部署完成"))
        ([] ++ [.user (.text "go"), .assistant (.text "thinking"),
          .user (.text "go"), .assistant (.toolCall "call-9" "apply_yaml_to_k8s" "null")]) :=
  ⟨rfl, rfl,
    c4_text_then_toolcall textToolAgent 1 (.user (.text "go")) []
      "thinking" "call-9" "apply_yaml_to_k8s" "null" "部署完成" [.text "ignored"] rfl rfl⟩

/-- C5 counterexample: the claim says a worker that terminates without
sending makes the receive failure surface as a `BridgeError` error value.
In the code the receive failure hits `rx.recv().unwrap()`, which panics: the
outcome is a panic, not an error value treated as a handler error (the
source's `ApplyError` has no bridge-error variant at all). -/
theorem c5_counterexample :
    recvUnwrap none = .panicked ∧
    surfacedAsHandlerError (recvUnwrap none) = false :=
  ⟨rfl, rfl⟩

/-- C5 (amended): the calling side of the bridge returns exactly the outcome
the worker sends over the one-shot channel; if the worker terminates without
sending, `rx.recv().unwrap()` panics — worker termination is observable (no
silent hang), but as a panic, not as a `BridgeError` handler error. -/
theorem c5_recv_delivers_or_panics :
    (∀ r : Except ApplyError String, recvUnwrap (some r) = .delivered r) ∧
    recvUnwrap none = .panicked :=
  ⟨fun _ => rfl, rfl⟩

/-- C6: for the first tool-call segment of a response (after any run of text
segments) whose invocation succeeds, the orchestrator continues with a
`UserToolResult` prompt carrying exactly the `call_id` received from the
completion client. -/
theorem c6_call_id_propagated (agent : AgentModel) (fuel : Nat) (current : Message)
    (hist : List Message) (pre : List String) (id name args r : String)
    (rest : List AssistantContent)
    (hc : agent.complete current hist =
      .ok (pre.map AssistantContent.text ++ .toolCall id name args :: rest))
    (ht : agent.toolsCall name args = .ok r) :
    ∃ hist', multiTurnPrompt agent (fuel + 1) current hist =
      multiTurnPrompt agent fuel (.user (.toolResult id r)) hist' := by
  obtain ⟨hist', hp⟩ :=
    processChoice_text_prefix_toolCall_ok agent.toolsCall pre current hist none
      id name args r rest ht
  have hne : (pre.map AssistantContent.text ++ .toolCall id name args :: rest).isEmpty
      = false := by
    cases hm : pre.map AssistantContent.text with
    | nil => simp
    | cons a l => simp
  refine ⟨hist', ?_⟩
  simp [multiTurnPrompt, hc, hne, hp]

/-- C6 witness: the call-id propagation theorem applied to the probe agent. -/
theorem c6_witness :
    (probeAgent.complete (.user (.text "deploy nginx")) [] =
      .ok (([] : List String).map AssistantContent.text ++
        .toolCall "call-7" "apply_yaml_to_k8s" "null" :: [])) ∧
    (probeAgent.toolsCall "apply_yaml_to_k8s" "null" = .ok "部署完成") ∧
    ∃ hist', multiTurnPrompt probeAgent (1 + 1) (.user (.text "deploy nginx")) [] =
      multiTurnPrompt probeAgent 1 (.user (.toolResult "call-7" "部署完成")) hist' :=
  ⟨rfl, rfl,
    c6_call_id_propagated probeAgent 1 (.user (.text "deploy nginx")) [] []
      "call-7" "apply_yaml_to_k8s" "null" "部署完成" [] rfl rfl⟩

/-- C7: the chat history is append-only across a whole run: whatever result
`multi_turn_prompt` produces (success or error), the final history is the
initial history with new turns appended at the end — the code only ever
pushes, never mutates, removes or reorders. -/
theorem c7_history_append_only (agent : AgentModel) :
    ∀ (fuel : Nat) (current : Message) (hist : List Message)
      (res : Except PromptError String) (hist' : List Message),
      multiTurnPrompt agent fuel current hist = some (res, hist') →
      ∃ tail, hist' = hist ++ tail := by
  intro fuel
  induction fuel with
  | zero =>
    intro current hist res hist' h
    simp [multiTurnPrompt] at h
  | succ fuel ih =>
    intro current hist res hist' h
    rw [multiTurnPrompt] at h
    cases hc : agent.complete current hist with
    | error e =>
      rw [hc] at h
      simp at h
      exact ⟨[], by rw [← h.2, List.append_nil]⟩
    | ok choice =>
      rw [hc] at h
      simp only at h
      by_cases hemp : choice.isEmpty
      · simp [hemp] at h
        exact ⟨[], by rw [← h.2, List.append_nil]⟩
      · simp only [hemp, if_neg, Bool.false_eq_true, not_false_eq_true, if_false] at h
        obtain ⟨tail0, htail0⟩ :=
          processChoice_history_append agent.toolsCall choice current hist none
        cases hps : processChoice agent.toolsCall choice current hist none with
        | failed e histf =>
          rw [hps] at h htail0
          simp [ScanOutcome.history] at htail0
          simp at h
          exact ⟨tail0, by rw [← h.2, htail0]⟩
        | toolCalled np histt =>
          rw [hps] at h htail0
          simp [ScanOutcome.history] at htail0
          obtain ⟨tail1, h1⟩ := ih np histt res hist' h
          exact ⟨tail0 ++ tail1, by rw [h1, htail0, List.append_assoc]⟩
        | finished ft histfin =>
          rw [hps] at h htail0
          simp [ScanOutcome.history] at htail0
          cases ft with
          | some t =>
            simp at h
            exact ⟨tail0, by rw [← h.2, htail0]⟩
          | none =>
            obtain ⟨tail1, h1⟩ := ih current histfin res hist' h
            exact ⟨tail0 ++ tail1, by rw [h1, htail0, List.append_assoc]⟩

/-- C7 witness: the append-only theorem applied to a concrete two-round run
starting from a non-empty history. -/
theorem c7_witness :
    (multiTurnPrompt probeAgent 3 (.user (.text "deploy nginx")) [] =
      some (.error (.completionError "probe"),
        [.user (.text "deploy nginx"),
         .assistant (.toolCall "call-7" "apply_yaml_to_k8s" "null")])) ∧
    ∃ tail,
      ([.user (.text "deploy nginx"),
        .assistant (.toolCall "call-7" "apply_yaml_to_k8s" "null")] : List Message) =
      [] ++ tail :=
  ⟨rfl, c7_history_append_only probeAgent 3 (.user (.text "deploy nginx")) [] _ _ rfl⟩

/-- C8: a non-empty response consisting only of text segments terminates the
loop with the text of the last text segment as the successful final answer. -/
theorem c8_returns_last_text (agent : AgentModel) (fuel : Nat) (current : Message)
    (hist : List Message) (ts : List String) (l : String)
    (hc : agent.complete current hist = .ok (ts.map AssistantContent.text))
    (hl : ts.getLast? = some l) :
    ∃ hist', multiTurnPrompt agent (fuel + 1) current hist = some (.ok l, hist') := by
  obtain ⟨hist', hp⟩ := processChoice_map_text agent.toolsCall ts current hist none
  have hlast : lastCandidate none ts = some l := lastCandidate_of_getLast? ts none l hl
  have hne : (ts.map AssistantContent.text).isEmpty = false := by
    cases ts with
    | nil => simp at hl
    | cons t ts => simp
  refine ⟨hist', ?_⟩
  rw [hlast] at hp
  simp [multiTurnPrompt, hc, hne, hp]

/-- C8 witness: the last-text theorem applied to the two-text-segment agent. -/
theorem c8_witness :
    (textOnlyAgent.complete (.user (.text "q")) [] =
      .ok ((["first", "final answer"] : List String).map AssistantContent.text)) ∧
    ((["first", "final answer"] : List String).getLast? = some "final answer") ∧
    ∃ hist', multiTurnPrompt textOnlyAgent (0 + 1) (.user (.text "q")) [] =
      some (.ok "final answer", hist') :=
  ⟨rfl, rfl,
    c8_returns_last_text textOnlyAgent 0 (.user (.text "q")) []
      ["first", "final answer"] "final answer" rfl rfl⟩

/-- C9: whenever the apply path reaches the create request, its namespace is
`metadata.namespace` defaulted to "default": absent namespace means the fixed
fallback "default", and a present namespace is used unchanged. -/
theorem c9_namespace_defaulting (obj : DynamicObject) (g v k ns : String)
    (h : buildApplyRequest obj = .request g v k ns) :
    ns = obj.metadata.namespace'.getD "default" ∧
    (obj.metadata.namespace' = none → ns = "default") ∧
    (∀ n, obj.metadata.namespace' = some n → ns = n) := by
  have h1 : ns = obj.metadata.namespace'.getD "default" := by
    unfold buildApplyRequest at h
    cases ht : obj.types with
    | none => simp [ht] at h
    | some t =>
      simp only [ht] at h
      cases hp : parse_api_version t.api_version with
      | mk go ver =>
        simp only [hp] at h
        cases go with
        | none => simp at h
        | some grp =>
          simp only [ApplyOutcome.request.injEq] at h
          exact h.2.2.2.symm
  refine ⟨h1, ?_, ?_⟩
  · intro hn; rw [h1, hn]; rfl
  · intro n hn; rw [h1, hn]; rfl

/-- C9 witness: the namespace theorem applied to a Deployment manifest with
no namespace field; the request targets "default". -/
theorem c9_witness :
    (buildApplyRequest ⟨some ⟨"apps/v1", "Deployment"⟩, ⟨some "web", none⟩⟩ =
      .request "apps" "v1" "Deployment" "default") ∧
    "default" =
      (DynamicObject.mk (some ⟨"apps/v1", "Deployment"⟩)
        ⟨some "web", none⟩).metadata.namespace'.getD "default" :=
  ⟨rfl,
    (c9_namespace_defaulting ⟨some ⟨"apps/v1", "Deployment"⟩, ⟨some "web", none⟩⟩
      "apps" "v1" "Deployment" "default" rfl).1⟩

/-- C10: for an `apiVersion` with no slash (core-group resources such as
"v1"), `parse_api_version` returns `(none, apiVersion)` and the apply path
hits the unconditional `group.unwrap()` and panics; whenever the
`apiVersion` does contain a slash, this unwrap cannot panic. -/
theorem c10_core_group_unwrap_panics (av k : String) (nm : ObjectMeta)
    (h : '/' ∉ av.toList) :
    parse_api_version av = (none, av) ∧
    buildApplyRequest ⟨some ⟨av, k⟩, nm⟩ = .panicked ∧
    (∀ av', '/' ∈ av'.toList →
      buildApplyRequest ⟨some ⟨av', k⟩, nm⟩ ≠ .panicked) := by
  have hp : parse_api_version av = (none, av) := by
    unfold parse_api_version
    rw [splitOnceChars_eq_none_of_not_mem '/' av.toList h]
  refine ⟨hp, ?_, ?_⟩
  · simp [buildApplyRequest, hp]
  · intro av' hm
    obtain ⟨p, hsp⟩ := splitOnceChars_isSome_of_mem '/' av'.toList hm
    simp only [String.toList] at hsp
    cases p with
    | mk gp vp => simp [buildApplyRequest, parse_api_version, String.toList, hsp]

/-- C10 witness: the core-group theorem applied to `apiVersion` "v1" and
kind "Pod": the parse yields no group and the apply path panics. -/
theorem c10_witness :
    ('/' ∉ "v1".toList) ∧
    parse_api_version "v1" = (none, "v1") ∧
    buildApplyRequest ⟨some ⟨"v1", "Pod"⟩, ⟨none, none⟩⟩ = .panicked :=
  ⟨by decide,
    (c10_core_group_unwrap_panics "v1" "Pod" ⟨none, none⟩ (by decide)).1,
    (c10_core_group_unwrap_panics "v1" "Pod" ⟨none, none⟩ (by decide)).2.1⟩
